import Mathlib

set_option maxRecDepth 20000

/-!
Verification of the PoCX consensus core (PoC-Consortium/bitcoin, src/pocx).

Shallow embedding of the C++ sources into Lean:
machine integers become `Nat` with explicit `% 2^32`, `% 2^64`, `% 2^256`
where the C++ type would truncate; word arrays become `List Nat`;
loops that may fail to terminate take explicit fuel and return `Option`.
Definitions are translated function-by-function from the source files;
doc comments name the origin of each definition.
-/

namespace PoCX

/-- 2^32, the modulus of `uint32_t` arithmetic. -/
def M32 : Nat := 4294967296

/-- 2^64, the modulus of `uint64_t` arithmetic. -/
def M64 : Nat := 18446744073709551616

/-- 2^256, the modulus of `arith_uint256` arithmetic. -/
def M256 : Nat := 2 ^ 256

/-- Addition of two `uint32_t` values (mod 2^32). -/
def add32 (x y : Nat) : Nat := (x + y) % M32

/-- Subtraction of two `uint32_t` values (wrapping, mod 2^32). -/
def sub32 (x y : Nat) : Nat := (x + (M32 - y % M32)) % M32

/-- Multiplication of two `uint32_t` values (mod 2^32). -/
def mul32 (x y : Nat) : Nat := (x * y) % M32

/-- Bitwise complement of a `uint32_t` value. -/
def not32 (x : Nat) : Nat := 4294967295 ^^^ x

/-- Left-rotation of a `uint32_t` by `k` bits, as the C++ sources write it:
`(x << k) | (x >> (32 - k))` with the shift truncated to 32 bits. -/
def rotl32 (x k : Nat) : Nat := ((x <<< k) % M32) ||| (x >>> (32 - k))

/-- Word read from a word array; out-of-range reads yield 0 (the C++ arrays
are fixed-size, so in-range by construction). -/
def gw (l : List Nat) (i : Nat) : Nat := l.getD i 0

/-- Shabal-256 initial vector A (src/pocx/crypto/shabal256.cpp, `A_INIT`;
`A_INIT_LITE` in shabal256_lite.cpp is identical). -/
def A_INIT : List Nat :=
  [0x52F84552, 0xE54B7999, 0x2D8EE3EC, 0xB9645191, 0xE0078B86, 0xBB7C44C9,
   0xD2B5C1CA, 0xB0D2EB8C, 0x14CE5A45, 0x22AF50DC, 0xEFFDBC6B, 0xEB21B74A]

/-- Shabal-256 initial vector B (src/pocx/crypto/shabal256.cpp, `B_INIT`). -/
def B_INIT : List Nat :=
  [0xB555C6EE, 0x3E710596, 0xA72A652F, 0x9301515F, 0xDA28C1FA, 0x696FD868,
   0x9CB6BF72, 0x0AFE4002, 0xA6E03615, 0x5138C1D4, 0xBE216306, 0xB38B8890,
   0x3EA8B96B, 0x3299ACE4, 0x30924DD4, 0x55CB34A5]

/-- Shabal-256 initial vector C (src/pocx/crypto/shabal256.cpp, `C_INIT`). -/
def C_INIT : List Nat :=
  [0xB405F031, 0xC4233EBA, 0xB3733979, 0xC0DD9D55, 0xC51C28AE, 0xA327B8E1,
   0x56C56167, 0xED614433, 0x88B59D60, 0x60E2CEBA, 0x758B4B8B, 0x83E82A7F,
   0xBC968828, 0xE6E00BF7, 0xBA839E55, 0x9B491C60]

/-- One `perm_elt` step (src/pocx/crypto/shabal256.cpp lines 47-52;
`perm_elt_lite` in shabal256_lite.cpp is the identical computation):
`a[xa0] = (a[xa0] ^ (rotl(a[xa1],15) * 5) ^ xc) * 3 ^ b[xb1] ^ (b[xb2] & ~b[xb3]) ^ xm;`
`b[xb0] = ~(rotl(b[xb0],1) ^ a[xa0]);` with `uint32_t` arithmetic. -/
def perm_elt (ab : List Nat × List Nat) (xa0 xa1 xb0 xb1 xb2 xb3 : Nat)
    (xc xm : Nat) : List Nat × List Nat :=
  let a := ab.1
  let b := ab.2
  let aNew := (mul32 ((gw a xa0) ^^^ (mul32 (rotl32 (gw a xa1) 15) 5) ^^^ xc) 3)
      ^^^ (gw b xb1) ^^^ ((gw b xb2) &&& (not32 (gw b xb3))) ^^^ xm
  let bNew := not32 ((rotl32 (gw b xb0) 1) ^^^ aNew)
  (a.set xa0 aNew, b.set xb0 bNew)

/-- The 48 index rows of `perm` (src/pocx/crypto/shabal256.cpp lines 55-102),
one row per `perm_elt` call: `(xa0, xa1, xb0, xb1, xb2, xb3, c-index, m-index)`.
The same 48 rows appear verbatim in each perm section of shabal256_lite.cpp. -/
def permRows : List (Nat × Nat × Nat × Nat × Nat × Nat × Nat × Nat) :=
  [(0, 11, 0, 13, 9, 6, 8, 0), (1, 0, 1, 14, 10, 7, 7, 1),
   (2, 1, 2, 15, 11, 8, 6, 2), (3, 2, 3, 0, 12, 9, 5, 3),
   (4, 3, 4, 1, 13, 10, 4, 4), (5, 4, 5, 2, 14, 11, 3, 5),
   (6, 5, 6, 3, 15, 12, 2, 6), (7, 6, 7, 4, 0, 13, 1, 7),
   (8, 7, 8, 5, 1, 14, 0, 8), (9, 8, 9, 6, 2, 15, 15, 9),
   (10, 9, 10, 7, 3, 0, 14, 10), (11, 10, 11, 8, 4, 1, 13, 11),
   (0, 11, 12, 9, 5, 2, 12, 12), (1, 0, 13, 10, 6, 3, 11, 13),
   (2, 1, 14, 11, 7, 4, 10, 14), (3, 2, 15, 12, 8, 5, 9, 15),
   (4, 3, 0, 13, 9, 6, 8, 0), (5, 4, 1, 14, 10, 7, 7, 1),
   (6, 5, 2, 15, 11, 8, 6, 2), (7, 6, 3, 0, 12, 9, 5, 3),
   (8, 7, 4, 1, 13, 10, 4, 4), (9, 8, 5, 2, 14, 11, 3, 5),
   (10, 9, 6, 3, 15, 12, 2, 6), (11, 10, 7, 4, 0, 13, 1, 7),
   (0, 11, 8, 5, 1, 14, 0, 8), (1, 0, 9, 6, 2, 15, 15, 9),
   (2, 1, 10, 7, 3, 0, 14, 10), (3, 2, 11, 8, 4, 1, 13, 11),
   (4, 3, 12, 9, 5, 2, 12, 12), (5, 4, 13, 10, 6, 3, 11, 13),
   (6, 5, 14, 11, 7, 4, 10, 14), (7, 6, 15, 12, 8, 5, 9, 15),
   (8, 7, 0, 13, 9, 6, 8, 0), (9, 8, 1, 14, 10, 7, 7, 1),
   (10, 9, 2, 15, 11, 8, 6, 2), (11, 10, 3, 0, 12, 9, 5, 3),
   (0, 11, 4, 1, 13, 10, 4, 4), (1, 0, 5, 2, 14, 11, 3, 5),
   (2, 1, 6, 3, 15, 12, 2, 6), (3, 2, 7, 4, 0, 13, 1, 7),
   (4, 3, 8, 5, 1, 14, 0, 8), (5, 4, 9, 6, 2, 15, 15, 9),
   (6, 5, 10, 7, 3, 0, 14, 10), (7, 6, 11, 8, 4, 1, 13, 11),
   (8, 7, 12, 9, 5, 2, 12, 12), (9, 8, 13, 10, 6, 3, 11, 13),
   (10, 9, 14, 11, 7, 4, 10, 14), (11, 10, 15, 12, 8, 5, 9, 15)]

/-- The 48-step `perm` round (src/pocx/crypto/shabal256.cpp lines 54-103):
folds `perm_elt` over the 48 rows, reading `xc` from `c` and `xm` from the
message block `m`. -/
def perm (a b c m : List Nat) : List Nat × List Nat :=
  permRows.foldl
    (fun ab row =>
      match row with
      | (xa0, xa1, xb0, xb1, xb2, xb3, ci, mi) =>
        perm_elt ab xa0 xa1 xb0 xb1 xb2 xb3 (gw c ci) (gw m mi))
    (a, b)

/-- The feedback sums after `perm` (src/pocx/crypto/shabal256.cpp lines
110-121): `a[i] += c[(i+11)%16] + c[(i+15)%16] + c[(i+3)%16]` for `i < 12`. -/
def addCSums (a c : List Nat) : List Nat :=
  (List.range 12).map (fun i =>
    (gw a i + gw c ((i + 11) % 16) + gw c ((i + 15) % 16) + gw c ((i + 3) % 16)) % M32)

/-- `apply_p` (src/pocx/crypto/shabal256.cpp lines 105-122): rotate every `b`
word left by 17, run the 48-step `perm`, then add the `c` feedback sums into
`a`. -/
def apply_p (a b c m : List Nat) : List Nat × List Nat :=
  let b1 := b.map (fun w => rotl32 w 17)
  let ab := perm a b1 c m
  (addCSums ab.1 c, ab.2)

/-- `input_block_add` (src/pocx/crypto/shabal256.cpp lines 28-32):
`b[i] += m[i]` for all 16 words. -/
def input_block_add (b m : List Nat) : List Nat :=
  (List.range 16).map (fun i => add32 (gw b i) (gw m i))

/-- `input_block_sub` (src/pocx/crypto/shabal256.cpp lines 35-39):
`c[i] -= m[i]` for all 16 words. -/
def input_block_sub (c m : List Nat) : List Nat :=
  (List.range 16).map (fun i => sub32 (gw c i) (gw m i))

/-- `xor_w` (src/pocx/crypto/shabal256.cpp lines 42-45):
`a[0] ^= w_low; a[1] ^= w_high`. -/
def xor_w (a : List Nat) (wlo whi : Nat) : List Nat :=
  (a.set 0 (gw a 0 ^^^ wlo)).set 1 (gw (a.set 0 (gw a 0 ^^^ wlo)) 1 ^^^ whi)

/-- `incr_w` (src/pocx/crypto/shabal256.cpp lines 132-137): increment the
64-bit block counter held as two `uint32_t` halves. -/
def incr_w (wlo whi : Nat) : Nat × Nat :=
  let l := (wlo + 1) % M32
  (l, if l = 0 then (whi + 1) % M32 else whi)

/-- The Shabal-256 machine state: the three word registers and the block
counter halves. -/
structure ShabalState where
  a : List Nat
  b : List Nat
  c : List Nat
  wlo : Nat
  whi : Nat

/-- The initial Shabal state (src/pocx/crypto/shabal256.cpp lines 140-148):
`A_INIT/B_INIT/C_INIT`, counter `w = (1, 0)`. -/
def shabalInit : ShabalState := ⟨A_INIT, B_INIT, C_INIT, 1, 0⟩

/-- One full message-block compression (the `while (num > 0)` body of
`Shabal256`, src/pocx/crypto/shabal256.cpp lines 154-163): `B += M`;
`A ^= W`; `apply_p`; `C -= M`; swap `B`/`C`; increment `W`. -/
def processBlock (st : ShabalState) (m : List Nat) : ShabalState :=
  let b0 := input_block_add st.b m
  let a0 := xor_w st.a st.wlo st.whi
  let ab := apply_p a0 b0 st.c m
  let c0 := input_block_sub st.c m
  let w := incr_w st.wlo st.whi
  ⟨ab.1, c0, ab.2, w.1, w.2⟩

/-- The terminator compression (src/pocx/crypto/shabal256.cpp lines 174-176):
`B += term`; `A ^= W`; `apply_p` — without the `C` update, swap or counter
increment. -/
def termCompress (st : ShabalState) (m : List Nat) : ShabalState :=
  let b0 := input_block_add st.b m
  let a0 := xor_w st.a st.wlo st.whi
  let ab := apply_p a0 b0 st.c m
  ⟨ab.1, ab.2, st.c, st.wlo, st.whi⟩

/-- One finalisation round (the `for (int i = 0; i < 3; ++i)` body of
`Shabal256`, src/pocx/crypto/shabal256.cpp lines 178-182): swap `B`/`C`;
`A ^= W`; `apply_p` with the terminator message. -/
def finalRound (st : ShabalState) (m : List Nat) : ShabalState :=
  let b0 := st.c
  let c0 := st.b
  let a0 := xor_w st.a st.wlo st.whi
  let ab := apply_p a0 b0 c0 m
  ⟨ab.1, ab.2, c0, st.wlo, st.whi⟩

/-- `Shabal256` (src/pocx/crypto/shabal256.cpp lines 139-185) at word level:
process the 16-word message blocks, the optional pre-terminator block and the
terminator block, run the three finalisation rounds, and return the output
words `b[8..16]`. -/
def Shabal256Words (blocks : List (List Nat)) (preTerm : Option (List Nat))
    (term : List Nat) : List Nat :=
  let st0 := blocks.foldl processBlock shabalInit
  let st1 := match preTerm with
    | none => st0
    | some pt => processBlock st0 pt
  let st2 := termCompress st1 term
  let st3 := finalRound (finalRound (finalRound st2 term) term) term
  (List.range 8).map (fun i => gw st3.b (8 + i))

/-- Little-endian serialisation of 32-bit words to bytes (the final `memcpy`
of `Shabal256` on a little-endian host). -/
def wordsToBytesLE (ws : List Nat) : List Nat :=
  (ws.map (fun w => [w % 256, w / 256 % 256, w / 65536 % 256, w / 16777216 % 256])).flatten

/-- `BytesToU32LE` (src/pocx/algorithms/encoding.cpp lines 40-47): pack bytes
into little-endian 32-bit words. -/
def BytesToU32LE (bytes : List Nat) : List Nat :=
  (List.range (bytes.length / 4)).map (fun i =>
    gw bytes (4 * i) ||| (gw bytes (4 * i + 1) <<< 8) |||
    (gw bytes (4 * i + 2) <<< 16) ||| (gw bytes (4 * i + 3) <<< 24))

/-- `NUM_SCOOPS` (src/pocx/algorithms/plot_generation.h): 4096 scoops per
nonce. -/
def NUM_SCOOPS : Nat := 4096

/-- `CalculateScoop` (src/pocx/algorithms/quality.cpp lines 29-51): build the
64-byte message `gensig(32) || BE64(height) || 0x80 || 0*23`, pack it into 16
little-endian words, hash it with `Shabal256(nullptr, 0, nullptr, msg, hash)`
(no data blocks, no pre-terminator, the message as terminator), and return
`((hash[30] & 0x0F) << 8) | hash[31]`. -/
def CalculateScoop (block_height : Nat) (generation_signature : List Nat) : Nat :=
  let heightBytes := (List.range 8).map (fun j => (block_height >>> ((7 - j) * 8)) &&& 255)
  let data := generation_signature.take 32 ++ heightBytes ++ [0x80] ++ List.replicate 23 0
  let dataU32 := BytesToU32LE data
  let hash := wordsToBytesLE (Shabal256Words [] none dataU32)
  (((gw hash 30) &&& 0x0F) <<< 8) ||| (gw hash 31)

/-- The lite terminator block (src/pocx/crypto/shabal256_lite.cpp lines 50-51):
8 words `{0x80, 0, ..., 0}`. -/
def LITE_TERM : List Nat := 0x80 :: List.replicate 7 0

/-- `Shabal256Lite` (src/pocx/crypto/shabal256_lite.cpp lines 35-299) at word
level.  The source inlines and unrolls the generic Shabal steps on a fixed
two-block input: block 1 adds `gensig` into `b[0..8]` and `data[0..8]` into
`b[8..16]` (lines 52-55) and is a full compression (perm `xm` words are
`gensig[0..8] || data[0..8]`, `C` subtraction lines 127-130, swap lines
132-136, counter increment lines 138-141); block 2 adds `data[8..16]` and the
`{0x80,0,...}` terminator (lines 144-147) and is a terminator compression
(no `C` update, swap or increment); then three swap/xor finalisation rounds
(lines 219-295).  Returns `b[8]` and `b[9]` packed as one little-endian u64
(`b_u64[4]`, lines 297-298). -/
def Shabal256Lite (dataWords gensigWords : List Nat) : Nat :=
  let m1 := gensigWords.take 8 ++ dataWords.take 8
  let m2 := (dataWords.drop 8).take 8 ++ LITE_TERM
  let st1 := processBlock shabalInit m1
  let st2 := termCompress st1 m2
  let st3 := finalRound (finalRound (finalRound st2 m2) m2) m2
  gw st3.b 8 + gw st3.b 9 * M32

/-- The doubling phase of `int_cuberoot_u256`
(src/pocx/algorithms/time_bending.cpp line 16): `while ((hi*hi*hi) < x) hi <<= 1`
in `arith_uint256` (mod 2^256) arithmetic.  The loop need not terminate, so it
takes fuel and returns `none` when the fuel runs out. -/
def cuberootDouble (x : Nat) : Nat → Nat → Option Nat
  | _, 0 => none
  | hi, fuel + 1 =>
    if (hi * hi * hi) % M256 < x then cuberootDouble x ((hi <<< 1) % M256) fuel
    else some hi

/-- The bisection phase of `int_cuberoot_u256`
(src/pocx/algorithms/time_bending.cpp lines 19-27): `while (lo < hi)` with
`mid = (lo + hi + 1) >> 1` and `mid³ ≤ x ? lo = mid : hi = mid - 1`, in
`arith_uint256` (mod 2^256) arithmetic, fuelled. -/
def cuberootBisect (x : Nat) : Nat → Nat → Nat → Option Nat
  | lo, hi, 0 => if lo < hi then none else some lo
  | lo, hi, fuel + 1 =>
    if lo < hi then
      let mid := ((lo + hi + 1) % M256) >>> 1
      let mid3 := (mid * mid * mid) % M256
      if mid3 ≤ x then cuberootBisect x mid hi fuel
      else cuberootBisect x lo ((mid + (M256 - 1)) % M256) fuel
    else some lo

/-- `int_cuberoot_u256` (src/pocx/algorithms/time_bending.cpp lines 12-29):
double `hi` from 1 until `hi³ ≥ x`, set `lo = hi >> 1`, then bisect.  All
arithmetic is `arith_uint256`, i.e. mod 2^256.  Fuelled; `none` means the
corresponding C++ loop does not finish within the given fuel. -/
def int_cuberoot_u256 (x : Nat) (fuel1 fuel2 : Nat) : Option Nat :=
  match cuberootDouble x 1 fuel1 with
  | none => none
  | some hi => cuberootBisect x (hi >>> 1) hi fuel2

/-- Fuel that the termination proof shows is enough for every input
`x ≤ 2^255`. -/
def cuberootFuel : Nat := 2 ^ 256

/-- `calculate_qscale_uint` (src/pocx/algorithms/time_bending.cpp lines
32-61): `SCALE_Q = (T·2^84 + d/2) / d` with
`d = (cuberoot(T·2^126) * 3927365422841) >> 42`, in `arith_uint256`
arithmetic.  `none` propagates a non-terminating cube root. -/
def calculate_qscale_uint (block_time : Nat) : Option Nat :=
  let GAMMA_FP : Nat := 3927365422841
  let t := block_time
  let block_scaled := (t <<< (3 * 42)) % M256
  match int_cuberoot_u256 block_scaled cuberootFuel cuberootFuel with
  | none => none
  | some t_cbrt =>
    let numerator := (t <<< (2 * 42)) % M256
    let denominator := ((t_cbrt * GAMMA_FP) % M256) >>> 42
    some (((numerator + (denominator >>> 1)) % M256) / denominator)

/-- `CalculateTimeBendedDeadline` (src/pocx/algorithms/time_bending.cpp lines
63-82), with `P = 21`, `Q = 42`: returns 0 for `quality = 0`, otherwise
`round((SCALE_Q · cuberoot(quality·2^63 / base_target)) / 2^63)` truncated to
its low 64 bits (`GetLow64`).  All arithmetic is `arith_uint256` (mod
2^256). -/
def CalculateTimeBendedDeadline (quality base_target block_time : Nat) : Option Nat :=
  if quality = 0 then some 0
  else
    match calculate_qscale_uint block_time with
    | none => none
    | some SCALE_Q =>
      let SHIFT_3P := (1 <<< (3 * 21)) % M256
      let V := ((quality * SHIFT_3P) % M256) / base_target
      match int_cuberoot_u256 V cuberootFuel cuberootFuel with
      | none => none
      | some r =>
        let numer := (SCALE_Q * r) % M256
        let denom := (1 <<< (21 + 42)) % M256
        let rounded := ((numer + (denom >>> 1)) % M256) / denom
        some (rounded % M64)

/-- Greedy bit-by-bit floor cube root on `Nat`, used as the mathematical
reference the fuelled source routine is compared against: builds the largest
`r` with `r^3 ≤ x`, one bit at a time from bit 85 down (exact for all
`x < 2^258`). -/
def cbrtAux (x : Nat) : Nat → Nat → Nat
  | r, 0 => r
  | r, j + 1 => if (r + 2 ^ j) ^ 3 ≤ x then cbrtAux x (r + 2 ^ j) j else cbrtAux x r j

/-- Floor cube root of a natural number below 2^258. -/
def cbrtFloor (x : Nat) : Nat := cbrtAux x 0 86

/-- Round-half-up division, as the spec writes it:
`round_half_up(n / d) = (n + d/2) / d`. -/
def round_half_up (n d : Nat) : Nat := (n + d / 2) / d

/-- The spec's `SCALE_Q` pipeline, written from the spec's words with exact
(unbounded) integer arithmetic and the exact floor cube root:
`SCALE_Q = round_half_up((T << 2Q) / ((cube_root(T << 3Q) * 3927365422841) >> Q))`
with `Q = 42`. -/
def specScaleQ (T : Nat) : Nat :=
  round_half_up (T <<< 84) ((cbrtFloor (T <<< 126) * 3927365422841) >>> 42)

/-- The spec's deadline pipeline with `P = 21`, `Q = 42`:
`V = (q << 3P) / base_target`, `r = cube_root(V)`,
`result = round_half_up(SCALE_Q * r / 2^(P+Q))` truncated to its low 64
bits. -/
def specDeadline (q base_target T : Nat) : Nat :=
  let V := (q <<< 63) / base_target
  let r := cbrtFloor V
  round_half_up (specScaleQ T * r) (2 ^ 63) % M64

/-- Divergence of the source cube-root routine at `x`: no amount of fuel makes
either loop finish. -/
def cuberootDiverges (x : Nat) : Prop :=
  ∀ fuel1 fuel2, int_cuberoot_u256 x fuel1 fuel2 = none

/-- `CalculateGenesisBaseTarget` (src/pocx/consensus/params.cpp lines 10-38):
`(low_capacity ? 2^60 : 2^42) / target_spacing`, floored to at least 1.
`target_spacing_seconds` is positive in every caller and is modelled as
`Nat`. -/
def CalculateGenesisBaseTarget (target_spacing_seconds : Nat)
    (low_capacity_calibration : Bool) : Nat :=
  let POWER_42 : Nat := 4398046511104
  let POWER_60 : Nat := 1152921504606846976
  let base_power := if low_capacity_calibration then POWER_60 else POWER_42
  let genesis_base_target := base_power / target_spacing_seconds
  if genesis_base_target = 0 then 1 else genesis_base_target

/-- A block-index stub: the two fields `GetNextBaseTarget` reads from each
ancestor (`nTime` is `uint32_t`, `nBaseTarget` is `uint64_t`). -/
structure BlockStub where
  nTime : Nat
  nBaseTarget : Nat

/-- `GetNextBaseTarget` (src/pocx/consensus/difficulty.cpp lines 18-89).
`chain` lists the last block first, followed by its ancestors (so
`chain.getD (lookback-1)` is `GetAncestor(height - lookback + 1)` and
`chain.take lookback` is the walker loop's window; the walker stops early on a
null `pprev`, hence `take`).  Timespan arithmetic is `int64_t`, modelled in
`Int`; the window total and the adjustment multiply are `uint64_t`, modelled
mod 2^64. -/
def GetNextBaseTarget (target_spacing window_size : Nat) (low_capacity : Bool)
    (height : Nat) (chain : List BlockStub) : Nat :=
  let genesis_base_target := CalculateGenesisBaseTarget target_spacing low_capacity
  if height = 0 then genesis_base_target
  else
    let prev_base_target := (chain.headD ⟨0, 0⟩).nBaseTarget
    let lookback := min window_size height
    let first := chain.getD (lookback - 1) ⟨0, 0⟩
    let actual_timespan0 : Int := ((chain.headD ⟨0, 0⟩).nTime : Int) - (first.nTime : Int)
    let target_timespan : Int := (lookback : Int) * (target_spacing : Int)
    let min_timespan : Int := if target_timespan / 2 = 0 then 1 else target_timespan / 2
    let actual_timespan1 := if actual_timespan0 < min_timespan then min_timespan else actual_timespan0
    let actual_timespan2 :=
      if actual_timespan1 > target_timespan * 2 then target_timespan * 2 else actual_timespan1
    let total_base_target :=
      (chain.take lookback).foldl (fun acc b => (acc + b.nBaseTarget) % M64) 0
    let avg_base_target := total_base_target / lookback
    let new_base_target0 := (avg_base_target * actual_timespan2.toNat) % M64 / target_timespan.toNat
    let max_increase := (prev_base_target + prev_base_target / 5) % M64
    let max_decrease := prev_base_target - prev_base_target / 5
    let new_base_target1 := if new_base_target0 > max_increase then max_increase else new_base_target0
    let new_base_target2 := if new_base_target1 < max_decrease then max_decrease else new_base_target1
    let new_base_target3 :=
      if new_base_target2 > genesis_base_target then genesis_base_target else new_base_target2
    if new_base_target3 = 0 then 1 else new_base_target3

/-- The derived forging state of an assignment record
(`ForgingState` in coins.h, forward-declared in src/pocx). -/
inductive ForgingState where
  | UNASSIGNED
  | ASSIGNING
  | ASSIGNED
  | REVOKING
  | REVOKED
deriving DecidableEq

/-- A stored forging-assignment record: the fields the state machine and the
effective-signer resolver read (spec section 3; the full record lives in
coins.h, outside src/pocx).  Addresses are 20-byte values modelled as byte
lists. -/
structure ForgingAssignment where
  forgingAddress : List Nat
  revoked : Bool
  assignmentEffectiveHeight : Int
  revocationEffectiveHeight : Int

/-- Modelled from the spec: `GetStateAtHeight` is declared on the assignment
record in coins.h, which is not under src/pocx; the derived-state table of
spec section 4.8 defines it — assigned and not revoked gives ASSIGNING below
the assignment effective height and ASSIGNED from it on; revoked gives
REVOKING below the revocation effective height and REVOKED from it on. -/
def GetStateAtHeight (a : ForgingAssignment) (h : Int) : ForgingState :=
  if a.revoked then
    if h < a.revocationEffectiveHeight then .REVOKING else .REVOKED
  else
    if h < a.assignmentEffectiveHeight then .ASSIGNING else .ASSIGNED

/-- Modelled from the spec: `IsActiveAtHeight` is declared on the assignment
record in coins.h, which is not under src/pocx; spec section 4.9 pins the
policy it implements — the record is active exactly in the states ASSIGNING,
ASSIGNED and REVOKING. -/
def IsActiveAtHeight (a : ForgingAssignment) (h : Int) : Bool :=
  match GetStateAtHeight a h with
  | .ASSIGNING => true
  | .ASSIGNED => true
  | .REVOKING => true
  | _ => false

/-- `GetEffectiveSigner` (src/pocx/assignments/assignment_state.cpp lines
14-37).  The coin-view lookup `view.GetForgingAssignment(plot, h)` is the
`assignment` argument (`none` when no record exists). -/
def GetEffectiveSigner (plotAddress : List Nat) (nHeight : Int)
    (assignment : Option ForgingAssignment) : List Nat :=
  match assignment with
  | some a => if IsActiveAtHeight a nHeight then a.forgingAddress else plotAddress
  | none => plotAddress

/-- `GetAssignmentState` (src/pocx/assignments/assignment_state.cpp lines
39-49): UNASSIGNED when no record exists, else the record's derived state. -/
def GetAssignmentState (nHeight : Int) (assignment : Option ForgingAssignment) :
    ForgingState :=
  match assignment with
  | none => .UNASSIGNED
  | some a => GetStateAtHeight a nHeight

/-- `ASSIGNMENT_MARKER` (src/pocx/assignments/opcodes.cpp line 16): "POCX". -/
def ASSIGNMENT_MARKER : List Nat := [0x50, 0x4F, 0x43, 0x58]

/-- `REVOCATION_MARKER` (src/pocx/assignments/opcodes.cpp line 19): "XCOP". -/
def REVOCATION_MARKER : List Nat := [0x58, 0x43, 0x4F, 0x50]

/-- The `OP_RETURN` opcode byte (script.h). -/
def OP_RETURN : Nat := 0x6a

/-- Modelled from the spec: `CScript::operator<<(std::vector)` lives in
script.h, outside src/pocx.  For a payload shorter than `OP_PUSHDATA1` (76
bytes) it emits one length byte followed by the payload — the spec writes the
two payloads as `OP_RETURN push(44) {...}` and `OP_RETURN push(24) {...}`. -/
def pushData (d : List Nat) : List Nat := d.length :: d

/-- `CreateAssignmentOpReturn` (src/pocx/assignments/opcodes.cpp lines 25-52):
`OP_RETURN` followed by the single 44-byte push `"POCX" || plot || forge`. -/
def CreateAssignmentOpReturn (plotAddress forgeAddress : List Nat) : List Nat :=
  OP_RETURN :: pushData (ASSIGNMENT_MARKER ++ plotAddress ++ forgeAddress)

/-- `CreateRevocationOpReturn` (src/pocx/assignments/opcodes.cpp lines 54-77):
`OP_RETURN` followed by the single 24-byte push `"XCOP" || plot`. -/
def CreateRevocationOpReturn (plotAddress : List Nat) : List Nat :=
  OP_RETURN :: pushData (REVOCATION_MARKER ++ plotAddress)

/-- Modelled from the spec: `CScript::GetOp` lives in script.h, outside
src/pocx.  For the direct-push opcodes 1..75 it reads that many payload bytes
and leaves the iterator after them; it fails when too few bytes remain.  The
parsers below only ever see direct pushes. -/
def getOpPush : List Nat → Option (List Nat × List Nat)
  | [] => none
  | op :: rest =>
    if 1 ≤ op ∧ op ≤ 75 then
      if rest.length < op then none else some (rest.take op, rest.drop op)
    else none

/-- `IsAssignmentOpReturn` (src/pocx/assignments/opcodes.cpp lines 83-118):
leading `OP_RETURN`, one data push of exactly 44 bytes, leading 4 bytes
`"POCX"`, and nothing after the push. -/
def IsAssignmentOpReturn (script : List Nat) : Bool :=
  match script with
  | [] => false
  | op :: rest =>
    if op ≠ OP_RETURN then false
    else
      match getOpPush rest with
      | none => false
      | some (data, tail) =>
        decide (data.length = 44) && decide (data.take 4 = ASSIGNMENT_MARKER) &&
          decide (tail = [])

/-- `IsRevocationOpReturn` (src/pocx/assignments/opcodes.cpp lines 120-155):
leading `OP_RETURN`, one data push of exactly 24 bytes, leading 4 bytes
`"XCOP"`, and nothing after the push. -/
def IsRevocationOpReturn (script : List Nat) : Bool :=
  match script with
  | [] => false
  | op :: rest =>
    if op ≠ OP_RETURN then false
    else
      match getOpPush rest with
      | none => false
      | some (data, tail) =>
        decide (data.length = 24) && decide (data.take 4 = REVOCATION_MARKER) &&
          decide (tail = [])

/-- `ParseAssignmentOpReturn` (src/pocx/assignments/opcodes.cpp lines
161-187): after `IsAssignmentOpReturn` succeeds, re-read the push and return
bytes 4..24 as the plot address and bytes 24..44 as the forge address. -/
def ParseAssignmentOpReturn (script : List Nat) : Option (List Nat × List Nat) :=
  if IsAssignmentOpReturn script then
    match script with
    | [] => none
    | _ :: rest =>
      match getOpPush rest with
      | none => none
      | some (data, _) => some ((data.drop 4).take 20, (data.drop 24).take 20)
  else none

/-- `ParseRevocationOpReturn` (src/pocx/assignments/opcodes.cpp lines
189-211): after `IsRevocationOpReturn` succeeds, return bytes 4..24 of the
push as the plot address. -/
def ParseRevocationOpReturn (script : List Nat) : Option (List Nat) :=
  if IsRevocationOpReturn script then
    match script with
    | [] => none
    | _ :: rest =>
      match getOpPush rest with
      | none => none
      | some (data, _) => some ((data.drop 4).take 20)
  else none

/-- A nonce submission (src/pocx/mining/submission.h): the fields carried
through the scheduler queue. -/
structure NonceSubmission where
  account_id : String
  seed : String
  nonce : Nat
  quality : Nat
  compression : Nat
  height : Int
  generation_signature : Nat

/-- `MAX_QUEUE_SIZE` (src/pocx/mining/scheduler.h line 53). -/
def MAX_QUEUE_SIZE : Nat := 1000

/-- The scheduler state that `SubmitNonce` and `Shutdown` touch: the
submission queue and the atomic shutdown flag
(src/pocx/mining/scheduler.h lines 50-91). -/
structure SchedulerState where
  queue : List NonceSubmission
  shutdown : Bool

/-- `PoCXScheduler::SubmitNonce` (src/pocx/mining/scheduler.cpp lines 33-68):
reject (return `false`, queue unchanged) when the queue already holds
`MAX_QUEUE_SIZE` entries, otherwise append the submission and return `true`.
The function never reads the shutdown flag. -/
def SubmitNonce (st : SchedulerState) (s : NonceSubmission) :
    SchedulerState × Bool :=
  if st.queue.length ≥ MAX_QUEUE_SIZE then (st, false)
  else ({ st with queue := st.queue ++ [s] }, true)

/-- `PoCXScheduler::Shutdown` (src/pocx/mining/scheduler.cpp lines 70-86):
sets the atomic shutdown flag (the condvar broadcast and thread join have no
counterpart in the queue state). -/
def SchedulerShutdown (st : SchedulerState) : SchedulerState :=
  { st with shutdown := true }

/-- The forging-candidate fields the defensive-forging decision reads
(src/pocx/mining/scheduler.h lines 31-47). -/
structure ForgingCandidate where
  quality : Nat
  tip_block_hash : Nat

/-- The fields of an arriving tip block the defensive-forging decision reads:
its own hash, its previous-block hash and its recorded proof quality. -/
structure TipInfo where
  hash : Nat
  prevHash : Nat
  proofQuality : Nat

/-- `PoCXScheduler::CheckDefensiveForging` (src/pocx/mining/scheduler.cpp
lines 393-405), as the decision whether a block is forged: `false` when
`new_tip.pprev` is not the candidate's stored tip (reorg), else forge exactly
when the candidate's quality is strictly lower than the arriving block's
recorded proof quality. -/
def CheckDefensiveForging (cand : ForgingCandidate) (new_tip : TipInfo) : Bool :=
  if new_tip.prevHash ≠ cand.tip_block_hash then false
  else decide (cand.quality < new_tip.proofQuality)

/-- The tip-change guard of `PoCXScheduler::ProcessSubmission`
(src/pocx/mining/scheduler.cpp lines 152-156): the defensive-forging check
runs only when a candidate exists and the observed tip hash differs from the
candidate's stored tip hash.  Returns whether a defensive block is forged. -/
def ProcessSubmissionDefensive (current : Option ForgingCandidate)
    (new_tip : TipInfo) : Bool :=
  match current with
  | none => false
  | some cand =>
    if cand.tip_block_hash ≠ new_tip.hash then CheckDefensiveForging cand new_tip
    else false

/-- `ValidationResult` (src/pocx/consensus/proof.h): the result record
`pocx_validate_block` fills. -/
structure ValidationResult where
  is_valid : Bool
  error_code : Int
  quality : Nat
  deadline : Nat

/-- `pocx_validate_block` (src/pocx/consensus/proof.cpp lines 18-94), shallow
in its two subroutine calls: `decode_result` stands for
`DecodeGenerationSignature`'s return value and `quality_result` for
`CalculateQuality`'s outcome (`some q` on success).  Returns the C++ return
value paired with the filled result record; `deadline = quality/base_target`
when `base_target > 0`, else `uint64_t` max. -/
def pocx_validate_block (decode_result : Int) (quality_result : Option Nat)
    (base_target : Nat) : Bool × ValidationResult :=
  let r0 : ValidationResult := ⟨false, -1, 0, M64 - 1⟩
  if decode_result ≠ 0 then
    (false, { r0 with error_code := if decode_result = -1 then -100 else -101 })
  else
    match quality_result with
    | none => (false, { r0 with error_code := -106 })
    | some quality =>
      let deadline := if base_target > 0 then quality / base_target else M64 - 1
      (true, ⟨true, 0, quality, deadline⟩)

/-! Helper lemmas. -/

theorem shl_eq (x n : Nat) : x <<< n = x * 2 ^ n := Nat.shiftLeft_eq x n

theorem shr_eq (x n : Nat) : x >>> n = x / 2 ^ n := Nat.shiftRight_eq_div_pow x n

theorem hM64_eq : M64 = 2 ^ 64 := by norm_num [M64]

theorem gw_range8_map_zero (f : Nat → Nat) : gw ((List.range 8).map f) 0 = f 0 := rfl

theorem gw_range8_map_one (f : Nat → Nat) : gw ((List.range 8).map f) 1 = f 1 := rfl

theorem mem_wordsToBytesLE_lt (ws : List Nat) (x : Nat) (hx : x ∈ wordsToBytesLE ws) :
    x < 256 := by
  unfold wordsToBytesLE at hx
  rw [List.mem_flatten] at hx
  obtain ⟨l, hl, hxl⟩ := hx
  rw [List.mem_map] at hl
  obtain ⟨w, _, rfl⟩ := hl
  simp only [List.mem_cons, List.not_mem_nil, or_false] at hxl
  rcases hxl with rfl | rfl | rfl | rfl <;> exact Nat.mod_lt _ (by norm_num)

theorem getD_lt_256 (l : List Nat) (i : Nat) (h : ∀ x ∈ l, x < 256) : l.getD i 0 < 256 := by
  induction l generalizing i with
  | nil => simp [List.getD]
  | cons a t ih =>
    cases i with
    | zero => simpa using h a (by simp)
    | succ j =>
      simp only [List.getD_cons_succ]
      exact ih j (fun x hx => h x (by simp [hx]))

theorem gw_wordsToBytesLE_lt (ws : List Nat) (i : Nat) : gw (wordsToBytesLE ws) i < 256 :=
  getD_lt_256 _ i (fun x hx => mem_wordsToBytesLE_lt ws x hx)

theorem scoop_formula_lt (ws : List Nat) :
    (((gw (wordsToBytesLE ws) 30) &&& 0x0F) <<< 8) ||| (gw (wordsToBytesLE ws) 31) < 4096 := by
  have h1 : ((gw (wordsToBytesLE ws) 30) &&& 0x0F) <<< 8 < 2 ^ 12 := by
    have hx : (gw (wordsToBytesLE ws) 30) &&& 0x0F ≤ 15 := Nat.and_le_right
    rw [Nat.shiftLeft_eq]
    calc ((gw (wordsToBytesLE ws) 30) &&& 0x0F) * 2 ^ 8 ≤ 15 * 2 ^ 8 :=
          Nat.mul_le_mul_right _ hx
      _ < 2 ^ 12 := by norm_num
  have h2 : gw (wordsToBytesLE ws) 31 < 2 ^ 12 :=
    lt_trans (gw_wordsToBytesLE_lt ws 31) (by norm_num)
  have h3 := Nat.or_lt_two_pow h1 h2
  norm_num at h3
  exact h3

theorem one_le_genesis (s : Nat) (lc : Bool) : 1 ≤ CalculateGenesisBaseTarget s lc := by
  have h : ∀ x : Nat, 1 ≤ (if x = 0 then 1 else x) := by
    intro x
    split <;> omega
  cases lc <;> exact h _

theorem clampFinal (g x : Nat) (hg : 1 ≤ g) :
    0 < (if (if x > g then g else x) = 0 then 1 else (if x > g then g else x)) ∧
      (if (if x > g then g else x) = 0 then 1 else (if x > g then g else x)) ≤ g := by
  split <;> split <;> omega

theorem getOpPush_pushData (d : List Nat) (h1 : 1 ≤ d.length) (h2 : d.length ≤ 75) :
    getOpPush (pushData d) = some (d, []) := by
  show getOpPush (d.length :: d) = some (d, [])
  simp only [getOpPush]
  rw [if_pos ⟨h1, h2⟩, if_neg (lt_irrefl _), List.take_length, List.drop_length]

theorem cbrtAux_spec (x : Nat) : ∀ (j r : Nat), r ^ 3 ≤ x → x < (r + 2 ^ j) ^ 3 →
    (cbrtAux x r j) ^ 3 ≤ x ∧ x < (cbrtAux x r j + 1) ^ 3 := by
  intro j
  induction j with
  | zero =>
    intro r h1 h2
    simpa [cbrtAux] using ⟨h1, h2⟩
  | succ k ih =>
    intro r h1 h2
    by_cases hc : (r + 2 ^ k) ^ 3 ≤ x
    · have hstep : cbrtAux x r (k + 1) = cbrtAux x (r + 2 ^ k) k := by
        simp [cbrtAux, hc]
      rw [hstep]
      refine ih (r + 2 ^ k) hc ?_
      have he : r + 2 ^ k + 2 ^ k = r + 2 ^ (k + 1) := by ring
      rw [he]
      exact h2
    · have hstep : cbrtAux x r (k + 1) = cbrtAux x r k := by
        simp [cbrtAux, hc]
      rw [hstep]
      exact ih r h1 (Nat.lt_of_not_le hc)

theorem cbrtFloor_spec (x : Nat) (hx : x < 2 ^ 258) :
    (cbrtFloor x) ^ 3 ≤ x ∧ x < (cbrtFloor x + 1) ^ 3 := by
  refine cbrtAux_spec x 86 0 (by simp) ?_
  have h : (0 + 2 ^ 86) ^ 3 = 2 ^ 258 := by norm_num
  rw [h]
  exact hx

theorem cbrt_unique (x r s : Nat) (h1 : r ^ 3 ≤ x) (h2 : x < (r + 1) ^ 3)
    (h3 : s ^ 3 ≤ x) (h4 : x < (s + 1) ^ 3) : r = s := by
  by_contra hne
  rcases Nat.lt_or_ge r s with h | h
  · have : (r + 1) ^ 3 ≤ s ^ 3 := Nat.pow_le_pow_left h 3
    omega
  · rcases Nat.lt_or_ge s r with h' | h'
    · have : (s + 1) ^ 3 ≤ r ^ 3 := Nat.pow_le_pow_left h' 3
      omega
    · omega

theorem cbrtFloor_lt_pow (x k : Nat) (hx : x < 2 ^ (3 * k)) (hk : k ≤ 86) :
    cbrtFloor x < 2 ^ k := by
  have hs := cbrtFloor_spec x (lt_of_lt_of_le hx (Nat.pow_le_pow_right (by norm_num) (by omega)))
  by_contra hge
  have h2 : (2 ^ k) ^ 3 ≤ (cbrtFloor x) ^ 3 := Nat.pow_le_pow_left (Nat.le_of_not_lt hge) 3
  have h3 : (2 ^ k) ^ 3 = 2 ^ (3 * k) := by
    rw [← Nat.pow_mul]
    ring_nf
  omega

theorem cuberootDouble_some (x : Nat) (hx : x ≤ 2 ^ 255) :
    ∀ (fuel k : Nat), k ≤ 85 → 86 - k ≤ fuel → (k = 0 ∨ 2 ^ (3 * (k - 1)) < x) →
    ∃ K, cuberootDouble x (2 ^ k) fuel = some (2 ^ K) ∧ K ≤ 85 ∧ x ≤ 2 ^ (3 * K) ∧
      (K = 0 ∨ 2 ^ (3 * (K - 1)) < x) := by
  intro fuel
  induction fuel with
  | zero =>
    intro k hk hfuel _
    omega
  | succ n ih =>
    intro k hk hfuel hinv
    have hcube : (2 ^ k * 2 ^ k * 2 ^ k) % M256 = 2 ^ (3 * k) := by
      have h1 : 2 ^ k * 2 ^ k * 2 ^ k = 2 ^ (3 * k) := by
        rw [← pow_add, ← pow_add]
        congr 1
        ring
      rw [h1]
      refine Nat.mod_eq_of_lt ?_
      have h2 : (3 : Nat) * k < 256 := by omega
      exact Nat.pow_lt_pow_right (by norm_num) h2
    by_cases hlt : (2 ^ k * 2 ^ k * 2 ^ k) % M256 < x
    · have hk85 : k < 85 := by
        by_contra hge
        have hk' : k = 85 := by omega
        rw [hcube, hk'] at hlt
        norm_num at hlt
        omega
      have hshift : ((2 ^ k) <<< 1) % M256 = 2 ^ (k + 1) := by
        rw [Nat.shiftLeft_eq, pow_one, ← pow_succ]
        refine Nat.mod_eq_of_lt ?_
        exact Nat.pow_lt_pow_right (by norm_num) (by omega)
      have hstep : cuberootDouble x (2 ^ k) (n + 1) = cuberootDouble x (2 ^ (k + 1)) n := by
        simp only [cuberootDouble, if_pos hlt, hshift]
      rw [hstep]
      refine ih (k + 1) (by omega) (by omega) (Or.inr ?_)
      have h3 : 3 * (k + 1 - 1) = 3 * k := by omega
      rw [h3]
      rw [hcube] at hlt
      exact hlt
    · refine ⟨k, ?_, hk, ?_, hinv⟩
      · simp only [cuberootDouble, if_neg hlt]
      · rw [hcube] at hlt
        omega

theorem cuberootBisect_some (x : Nat) :
    ∀ (fuel lo hi : Nat), hi ≤ 2 ^ 85 → lo ≤ hi → lo ^ 3 ≤ x → x < (hi + 1) ^ 3 →
    hi - lo < fuel →
    ∃ r, cuberootBisect x lo hi fuel = some r ∧ r ^ 3 ≤ x ∧ x < (r + 1) ^ 3 := by
  intro fuel
  induction fuel with
  | zero =>
    intro lo hi _ _ _ _ hfuel
    omega
  | succ n ih =>
    intro lo hi hhi hlohi hlo3 hhi3 hfuel
    by_cases hlt : lo < hi
    · have hM : (0 : Nat) < M256 := by norm_num [M256]
      have hsum : (lo + hi + 1) % M256 = lo + hi + 1 := by
        refine Nat.mod_eq_of_lt ?_
        have h85 : (2 : Nat) ^ 85 + 2 ^ 85 + 1 < 2 ^ 256 := by norm_num
        have hle : lo + hi + 1 ≤ 2 ^ 85 + 2 ^ 85 + 1 := by omega
        unfold M256
        omega
      have hmid : ((lo + hi + 1) % M256) >>> 1 = (lo + hi + 1) / 2 := by
        rw [hsum, Nat.shiftRight_eq_div_pow, pow_one]
      set mid := (lo + hi + 1) / 2 with hmiddef
      have hmid1 : lo + 1 ≤ mid := by omega
      have hmid2 : mid ≤ hi := by omega
      have hmidcube : (mid * mid * mid) % M256 = mid ^ 3 := by
        have h1 : mid * mid * mid = mid ^ 3 := by ring
        rw [h1]
        refine Nat.mod_eq_of_lt ?_
        have h2 : mid ^ 3 ≤ (2 ^ 85) ^ 3 := Nat.pow_le_pow_left (by omega) 3
        have h3 : ((2 : Nat) ^ 85) ^ 3 < 2 ^ 256 := by
          rw [← pow_mul]
          exact Nat.pow_lt_pow_right (by norm_num) (by norm_num)
        unfold M256
        omega
      by_cases hc : (mid * mid * mid) % M256 ≤ x
      · have hstep : cuberootBisect x lo hi (n + 1) = cuberootBisect x mid hi n := by
          simp only [cuberootBisect, if_pos hlt, hmid, hmiddef, hmidcube]
          rw [if_pos (by rw [← hmidcube]; exact hc)]
        rw [hstep]
        refine ih mid hi hhi hmid2 ?_ hhi3 (by omega)
        rw [← hmidcube]
        exact hc
      · have hm1 : (mid + (M256 - 1)) % M256 = mid - 1 := by
          have h1 : mid + (M256 - 1) = (mid - 1) + M256 := by omega
          rw [h1, Nat.add_mod_right]
          refine Nat.mod_eq_of_lt ?_
          have h2 : mid ≤ 2 ^ 85 := by omega
          unfold M256
          have h85 : (2 : Nat) ^ 85 < 2 ^ 256 := by norm_num
          omega
        have hstep : cuberootBisect x lo hi (n + 1) = cuberootBisect x lo (mid - 1) n := by
          simp only [cuberootBisect, if_pos hlt, hmid, hmiddef, hmidcube]
          rw [if_neg (by simp only [← hmiddef]; rw [hmidcube] at hc; exact hc), hm1]
        rw [hstep]
        have hx3 : x < (mid - 1 + 1) ^ 3 := by
          have h1 : mid - 1 + 1 = mid := by omega
          rw [h1]
          rw [hmidcube] at hc
          omega
        exact ih lo (mid - 1) (by omega) (by omega) hlo3 hx3 (by omega)
    · have hstep : cuberootBisect x lo hi (n + 1) = some lo := by
        simp only [cuberootBisect, if_neg hlt]
      have heq : lo = hi := by omega
      refine ⟨lo, hstep, hlo3, ?_⟩
      rw [heq]
      exact hhi3

theorem int_cuberoot_correct (x : Nat) (hx : x ≤ 2 ^ 255) :
    int_cuberoot_u256 x cuberootFuel cuberootFuel = some (cbrtFloor x) := by
  obtain ⟨K, hK, hK85, hxle, hinv⟩ :=
    cuberootDouble_some x hx cuberootFuel 0 (by norm_num)
      (by norm_num [cuberootFuel]) (Or.inl rfl)
  have h1 : (1 : Nat) = 2 ^ 0 := rfl
  have hmain : int_cuberoot_u256 x cuberootFuel cuberootFuel
      = cuberootBisect x ((2 ^ K) >>> 1) (2 ^ K) cuberootFuel := by
    unfold int_cuberoot_u256
    rw [h1, hK]
  have hlo : (2 ^ K) >>> 1 = 2 ^ K / 2 := by
    rw [Nat.shiftRight_eq_div_pow, pow_one]
  have hlo3 : (2 ^ K / 2) ^ 3 ≤ x := by
    rcases Nat.eq_zero_or_pos K with h0 | hKpos
    · subst h0
      norm_num
    · have hKsub : 2 ^ K / 2 = 2 ^ (K - 1) := by
        rw [show K = K - 1 + 1 by omega, pow_succ, Nat.mul_div_cancel _ (by norm_num)]
        congr 1
      rcases hinv with h0 | hK1
      · omega
      · rw [hKsub, ← Nat.pow_mul]
        rw [show (K - 1) * 3 = 3 * (K - 1) by ring]
        omega
  have hhi3 : x < (2 ^ K + 1) ^ 3 := by
    have h2 : (2 ^ K) ^ 3 = 2 ^ (3 * K) := by
      rw [← Nat.pow_mul]
      congr 1
      ring
    have h3 : (2 ^ K) ^ 3 < (2 ^ K + 1) ^ 3 := by
      refine Nat.pow_lt_pow_left ?_ (by norm_num)
      omega
    omega
  obtain ⟨r, hr, hr3, hr3'⟩ :=
    cuberootBisect_some x cuberootFuel (2 ^ K / 2) (2 ^ K)
      (Nat.pow_le_pow_right (by norm_num) hK85)
      (Nat.div_le_self _ _) hlo3 hhi3
      (by
        have hle : 2 ^ K ≤ 2 ^ 85 := Nat.pow_le_pow_right (by norm_num) hK85
        have h85 : (2 : Nat) ^ 85 < 2 ^ 256 := by norm_num
        unfold cuberootFuel
        omega)
  rw [hmain, hlo, hr]
  have hs := cbrtFloor_spec x (by
    have h258 : (2 : Nat) ^ 255 < 2 ^ 258 := by norm_num
    omega)
  exact congrArg some (cbrt_unique x r (cbrtFloor x) hr3 hr3' hs.1 hs.2)

theorem cuberootDouble_diverges : ∀ (fuel k : Nat),
    cuberootDouble (2 ^ 255 + 1) (2 ^ k % M256) fuel = none := by
  intro fuel
  induction fuel with
  | zero =>
    intro k
    rfl
  | succ n ih =>
    intro k
    have hc : ((2 ^ k % M256) * (2 ^ k % M256) * (2 ^ k % M256)) % M256 < 2 ^ 255 + 1 := by
      have e1 : (2 ^ k % M256) * (2 ^ k % M256) * (2 ^ k % M256) = (2 ^ k % M256) ^ 3 := by
        ring
      rw [e1, ← Nat.pow_mod, ← pow_mul]
      rcases le_or_lt k 85 with hk | hk
      · rw [Nat.mod_eq_of_lt (by
          unfold M256
          exact Nat.pow_lt_pow_right (by norm_num) (by omega))]
        have h255 : (2 : Nat) ^ (k * 3) ≤ 2 ^ 255 := Nat.pow_le_pow_right (by norm_num) (by omega)
        omega
      · rw [Nat.mod_eq_zero_of_dvd (by
          unfold M256
          exact pow_dvd_pow 2 (by omega))]
        omega
    have hshift : ((2 ^ k % M256) <<< 1) % M256 = 2 ^ (k + 1) % M256 := by
      rw [Nat.shiftLeft_eq, pow_one, Nat.mod_mul_mod, ← pow_succ]
    have hstep : cuberootDouble (2 ^ 255 + 1) (2 ^ k % M256) (n + 1)
        = cuberootDouble (2 ^ 255 + 1) (2 ^ (k + 1) % M256) n := by
      simp only [cuberootDouble, if_pos hc, hshift]
    rw [hstep]
    exact ih (k + 1)

theorem qscale_eq (T : Nat) (hT1 : 0 < T) (hT : T < M64) :
    calculate_qscale_uint T = some (specScaleQ T) := by
  have hT' : T < 2 ^ 64 := by rw [← hM64_eq]; exact hT
  have hb1 : T * 2 ^ 126 < 2 ^ 190 := by
    calc T * 2 ^ 126 < 2 ^ 64 * 2 ^ 126 := by
          exact Nat.mul_lt_mul_of_pos_right hT' (by positivity)
      _ = 2 ^ 190 := by rw [← pow_add]
  have hb255 : T * 2 ^ 126 ≤ 2 ^ 255 := by
    have h1 : (2 : Nat) ^ 190 ≤ 2 ^ 255 := Nat.pow_le_pow_right (by norm_num) (by norm_num)
    omega
  have hbs : (T <<< (3 * 42)) % M256 = T * 2 ^ 126 := by
    rw [shl_eq]
    norm_num
    refine Nat.mod_eq_of_lt ?_
    have h1 : (2 : Nat) ^ 190 < 2 ^ 256 := Nat.pow_lt_pow_right (by norm_num) (by norm_num)
    unfold M256
    omega
  have hcbrt := int_cuberoot_correct (T * 2 ^ 126) hb255
  have hcb64 : cbrtFloor (T * 2 ^ 126) < 2 ^ 64 := by
    refine cbrtFloor_lt_pow _ 64 ?_ (by norm_num)
    have h1 : (2 : Nat) ^ 190 < 2 ^ (3 * 64) := Nat.pow_lt_pow_right (by norm_num) (by norm_num)
    omega
  have hprod : cbrtFloor (T * 2 ^ 126) * 3927365422841 < 2 ^ 106 := by
    calc cbrtFloor (T * 2 ^ 126) * 3927365422841 < 2 ^ 64 * 2 ^ 42 := by
          refine Nat.mul_lt_mul_of_lt_of_le hcb64 (by norm_num) (by norm_num)
      _ = 2 ^ 106 := by rw [← pow_add]
  have hprodmod : (cbrtFloor (T * 2 ^ 126) * 3927365422841) % M256
      = cbrtFloor (T * 2 ^ 126) * 3927365422841 := by
    refine Nat.mod_eq_of_lt ?_
    have h1 : (2 : Nat) ^ 106 < 2 ^ 256 := Nat.pow_lt_pow_right (by norm_num) (by norm_num)
    unfold M256
    omega
  have hnum : T * 2 ^ 84 < 2 ^ 148 := by
    calc T * 2 ^ 84 < 2 ^ 64 * 2 ^ 84 := by
          exact Nat.mul_lt_mul_of_pos_right hT' (by positivity)
      _ = 2 ^ 148 := by rw [← pow_add]
  have hd : cbrtFloor (T * 2 ^ 126) * 3927365422841 / 2 ^ 42 < 2 ^ 106 :=
    lt_of_le_of_lt (Nat.div_le_self _ _) hprod
  have hsum : (T * 2 ^ 84 + (cbrtFloor (T * 2 ^ 126) * 3927365422841 / 2 ^ 42) / 2) % M256
      = T * 2 ^ 84 + (cbrtFloor (T * 2 ^ 126) * 3927365422841 / 2 ^ 42) / 2 := by
    refine Nat.mod_eq_of_lt ?_
    have h1 : (cbrtFloor (T * 2 ^ 126) * 3927365422841 / 2 ^ 42) / 2 < 2 ^ 106 :=
      lt_of_le_of_lt (Nat.div_le_self _ _) hd
    have h2 : (2 : Nat) ^ 148 + 2 ^ 106 < 2 ^ 256 := by norm_num
    unfold M256
    omega
  unfold calculate_qscale_uint specScaleQ
  simp only []
  rw [hbs, hcbrt]
  simp only [shl_eq, shr_eq, pow_one]
  norm_num
  norm_num at hprodmod hsum
  rw [hprodmod, hsum]
  rfl

theorem specDeadline_zero (bt T : Nat) : specDeadline 0 bt T = 0 := by
  unfold specDeadline
  have h0 : (0 : Nat) <<< 63 / bt = 0 := by
    rw [shl_eq, zero_mul, Nat.zero_div]
  rw [h0]
  simp only []
  have hc := (cbrtFloor_spec 0 (by positivity)).1
  have hc0 : cbrtFloor 0 = 0 := by
    have h1 := Nat.le_zero.mp hc
    exact pow_eq_zero_iff (by norm_num) |>.mp h1
  rw [hc0, mul_zero]
  unfold round_half_up
  norm_num

theorem deadline_eq (q bt T : Nat) (hq : q < M64) (hbt : 0 < bt) (hT1 : 0 < T)
    (hT : T < M64) :
    CalculateTimeBendedDeadline q bt T = some (specDeadline q bt T) := by
  by_cases hq0 : q = 0
  · subst hq0
    rw [specDeadline_zero]
    rfl
  · have hq' : q < 2 ^ 64 := by rw [← hM64_eq]; exact hq
    unfold CalculateTimeBendedDeadline
    rw [if_neg hq0, qscale_eq T hT1 hT]
    simp only []
    have hS : (1 <<< (3 * 21)) % M256 = 2 ^ 63 := by
      rw [shl_eq, one_mul]
      norm_num [M256]
    rw [hS]
    have hqm : (q * 2 ^ 63) % M256 = q * 2 ^ 63 := by
      refine Nat.mod_eq_of_lt ?_
      have h1 : q * 2 ^ 63 < 2 ^ 64 * 2 ^ 63 := Nat.mul_lt_mul_of_pos_right hq' (by positivity)
      have h2 : (2 : Nat) ^ 64 * 2 ^ 63 = 2 ^ 127 := by rw [← pow_add]
      have h3 : (2 : Nat) ^ 127 < 2 ^ 256 := Nat.pow_lt_pow_right (by norm_num) (by norm_num)
      unfold M256
      omega
    rw [hqm]
    have hV255 : q * 2 ^ 63 / bt ≤ 2 ^ 255 := by
      have h1 : q * 2 ^ 63 / bt ≤ q * 2 ^ 63 := Nat.div_le_self _ _
      have h2 : q * 2 ^ 63 < 2 ^ 64 * 2 ^ 63 := Nat.mul_lt_mul_of_pos_right hq' (by positivity)
      have h3 : (2 : Nat) ^ 64 * 2 ^ 63 = 2 ^ 127 := by rw [← pow_add]
      have h4 : (2 : Nat) ^ 127 ≤ 2 ^ 255 := Nat.pow_le_pow_right (by norm_num) (by norm_num)
      omega
    rw [int_cuberoot_correct _ hV255]
    simp only []
    have hr43 : cbrtFloor (q * 2 ^ 63 / bt) < 2 ^ 43 := by
      refine cbrtFloor_lt_pow _ 43 ?_ (by norm_num)
      have h2 : q * 2 ^ 63 / bt ≤ q * 2 ^ 63 := Nat.div_le_self _ _
      have h3 : q * 2 ^ 63 < 2 ^ 64 * 2 ^ 63 := Nat.mul_lt_mul_of_pos_right hq' (by positivity)
      have h4 : (2 : Nat) ^ 64 * 2 ^ 63 = 2 ^ 127 := by rw [← pow_add]
      have h5 : (2 : Nat) ^ 127 ≤ 2 ^ (3 * 43) := Nat.pow_le_pow_right (by norm_num) (by norm_num)
      omega
    have hscale : specScaleQ T < 2 ^ 149 := by
      unfold specScaleQ round_half_up
      have h1 : T <<< 84 = T * 2 ^ 84 := shl_eq T 84
      have hnum : T * 2 ^ 84 < 2 ^ 148 := by
        have h2 : T * 2 ^ 84 < 2 ^ 64 * 2 ^ 84 := by
          refine Nat.mul_lt_mul_of_pos_right ?_ (by positivity)
          rw [← hM64_eq]
          exact hT
        have h3 : (2 : Nat) ^ 64 * 2 ^ 84 = 2 ^ 148 := by rw [← pow_add]
        omega
      have hcb : cbrtFloor (T <<< 126) * 3927365422841 < 2 ^ 106 := by
        have hT' : T < 2 ^ 64 := by rw [← hM64_eq]; exact hT
        have hb1 : T <<< 126 < 2 ^ 190 := by
          rw [shl_eq]
          calc T * 2 ^ 126 < 2 ^ 64 * 2 ^ 126 :=
                Nat.mul_lt_mul_of_pos_right hT' (by positivity)
            _ = 2 ^ 190 := by rw [← pow_add]
        have hc64 : cbrtFloor (T <<< 126) < 2 ^ 64 := by
          refine cbrtFloor_lt_pow _ 64 ?_ (by norm_num)
          have h2 : (2 : Nat) ^ 190 < 2 ^ (3 * 64) := Nat.pow_lt_pow_right (by norm_num) (by norm_num)
          omega
        calc cbrtFloor (T <<< 126) * 3927365422841 < 2 ^ 64 * 2 ^ 42 := by
              refine Nat.mul_lt_mul_of_lt_of_le hc64 (by norm_num) (by norm_num)
          _ = 2 ^ 106 := by rw [← pow_add]
      have h7 : (cbrtFloor (T <<< 126) * 3927365422841) >>> 42 / 2
          ≤ cbrtFloor (T <<< 126) * 3927365422841 := by
        rw [shr_eq]
        exact le_trans (Nat.div_le_self _ _) (Nat.div_le_self _ _)
      have h8 : (2 : Nat) ^ 148 + 2 ^ 106 ≤ 2 ^ 149 := by norm_num
      rw [h1]
      have h9 : (T * 2 ^ 84 + (cbrtFloor (T <<< 126) * 3927365422841) >>> 42 / 2)
          / ((cbrtFloor (T <<< 126) * 3927365422841) >>> 42)
          ≤ T * 2 ^ 84 + (cbrtFloor (T <<< 126) * 3927365422841) >>> 42 / 2 :=
        Nat.div_le_self _ _
      omega
    have hnumer : (specScaleQ T * cbrtFloor (q * 2 ^ 63 / bt)) % M256
        = specScaleQ T * cbrtFloor (q * 2 ^ 63 / bt) := by
      refine Nat.mod_eq_of_lt ?_
      have h1 : specScaleQ T * cbrtFloor (q * 2 ^ 63 / bt) < 2 ^ 149 * 2 ^ 43 :=
        Nat.mul_lt_mul_of_lt_of_le hscale (le_of_lt hr43) (by positivity)
      have h2 : (2 : Nat) ^ 149 * 2 ^ 43 = 2 ^ 192 := by rw [← pow_add]
      have h3 : (2 : Nat) ^ 192 < 2 ^ 256 := Nat.pow_lt_pow_right (by norm_num) (by norm_num)
      unfold M256
      omega
    rw [hnumer]
    have hsum2 : (specScaleQ T * cbrtFloor (q * 2 ^ 63 / bt) + 2 ^ 63 >>> 1) % M256
        = specScaleQ T * cbrtFloor (q * 2 ^ 63 / bt) + 2 ^ 63 >>> 1 := by
      refine Nat.mod_eq_of_lt ?_
      have h1 : specScaleQ T * cbrtFloor (q * 2 ^ 63 / bt) < 2 ^ 192 := by
        have ha : specScaleQ T * cbrtFloor (q * 2 ^ 63 / bt) < 2 ^ 149 * 2 ^ 43 :=
          Nat.mul_lt_mul_of_lt_of_le hscale (le_of_lt hr43) (by positivity)
        have hb : (2 : Nat) ^ 149 * 2 ^ 43 = 2 ^ 192 := by rw [← pow_add]
        omega
      have h2 : (2 : Nat) ^ 63 >>> 1 ≤ 2 ^ 63 := by
        rw [shr_eq]
        exact Nat.div_le_self _ _
      have h3 : (2 : Nat) ^ 192 + 2 ^ 63 < 2 ^ 256 := by norm_num
      unfold M256
      omega
    rw [hsum2]
    unfold specDeadline
    simp only []
    unfold round_half_up
    rw [shl_eq, shr_eq, pow_one]

/-! Claim theorems. -/

/-- C1: for every quality `q`, `base_target > 0` and block spacing `T` (both
64-bit, `T ≥ 1` since the `arith_uint256` pipeline divides by a
`T`-derived quantity), `CalculateTimeBendedDeadline` terminates and equals the
spec's fixed-point pipeline with `P = 21`, `Q = 42`:
`SCALE_Q = round_half_up((T << 2Q) / ((cube_root(T << 3Q) * 3927365422841) >> Q))`,
`V = (q << 3P) / base_target`, `r = cube_root(V)`,
`result = round_half_up(SCALE_Q * r / 2^(P+Q))` truncated to its low 64 bits;
and for `q = 0` the function returns 0. -/
theorem C1_time_bended_deadline_matches_spec :
    (∀ bt T : Nat, CalculateTimeBendedDeadline 0 bt T = some 0) ∧
    (∀ q bt T : Nat, q < M64 → 0 < bt → 0 < T → T < M64 →
      CalculateTimeBendedDeadline q bt T = some (specDeadline q bt T)) :=
  ⟨fun _ _ => rfl, fun q bt T hq hbt hT1 hT => deadline_eq q bt T hq hbt hT1 hT⟩

/-- C1 witness: the pipeline equality instantiated at the spec's S6 scenario
`q = 2^63`, `base_target = 2^42/600`, `T = 600`. -/
theorem C1_witness :
    ((2 : Nat) ^ 63 < M64 ∧ 0 < (2 ^ 42 / 600 : Nat) ∧ 0 < (600 : Nat) ∧ (600 : Nat) < M64) ∧
    CalculateTimeBendedDeadline (2 ^ 63) (2 ^ 42 / 600) 600
      = some (specDeadline (2 ^ 63) (2 ^ 42 / 600) 600) :=
  ⟨⟨by decide, by decide, by decide, by decide⟩,
   C1_time_bended_deadline_matches_spec.2 (2 ^ 63) (2 ^ 42 / 600) 600
     (by decide) (by decide) (by decide) (by decide)⟩

/-- C2 counterexample: the claim quantifies over every 256-bit input, but at
`x = 2^255 + 1` the doubling loop of `int_cuberoot_u256` never exits:
`hi³ mod 2^256` wraps to 0 once `hi ≥ 2^86` and `hi` itself wraps to 0, so the
condition `hi³ < x` stays true for every amount of fuel and the routine does
not terminate. -/
theorem C2_counterexample_cuberoot_diverges : cuberootDiverges (2 ^ 255 + 1) := by
  intro fuel1 fuel2
  unfold int_cuberoot_u256
  have hnone := cuberootDouble_diverges fuel1 0
  rw [show (2 : Nat) ^ 0 % M256 = 1 by norm_num [M256]] at hnone
  rw [hnone]

/-- C2 (amended): for every `x ≤ 2^255` — which covers every value the
deadline pipeline feeds it — `int_cuberoot_u256` terminates and returns the
exact floor cube root, the unique `r` with `r³ ≤ x < (r+1)³`. -/
theorem C2_cuberoot_exact_floor (x : Nat) (hx : x ≤ 2 ^ 255) :
    int_cuberoot_u256 x cuberootFuel cuberootFuel = some (cbrtFloor x) ∧
    (cbrtFloor x) ^ 3 ≤ x ∧ x < (cbrtFloor x + 1) ^ 3 := by
  have hs := cbrtFloor_spec x (lt_of_le_of_lt hx (by norm_num : (2 : Nat) ^ 255 < 2 ^ 258))
  exact ⟨int_cuberoot_correct x hx, hs.1, hs.2⟩

/-- C2 witness: the exact-floor theorem instantiated at `x = 27`. -/
theorem C2_witness : (27 : Nat) ≤ 2 ^ 255 ∧
    (int_cuberoot_u256 27 cuberootFuel cuberootFuel = some (cbrtFloor 27) ∧
     (cbrtFloor 27) ^ 3 ≤ 27 ∧ 27 < (cbrtFloor 27 + 1) ^ 3) :=
  ⟨by decide, C2_cuberoot_exact_floor 27 (by decide)⟩

/-- C3: for every last block index (any height, any window of ancestor base
targets and timestamps) and positive chain parameters, `GetNextBaseTarget`
returns a value that is strictly positive and at most the genesis base
target. -/
theorem C3_next_base_target_bounds (spacing window : Nat) (lowCap : Bool)
    (height : Nat) (chain : List BlockStub) (hs : 0 < spacing) (hw : 0 < window) :
    0 < GetNextBaseTarget spacing window lowCap height chain ∧
      GetNextBaseTarget spacing window lowCap height chain
        ≤ CalculateGenesisBaseTarget spacing lowCap := by
  unfold GetNextBaseTarget
  split
  · exact ⟨one_le_genesis spacing lowCap, le_refl _⟩
  · exact clampFinal _ _ (one_le_genesis spacing lowCap)

/-- C3 witness: the bounds instantiated on a concrete 4-block chain with
mainnet-like parameters. -/
theorem C3_witness : (0 : Nat) < 600 ∧ (0 : Nat) < 24 ∧
    (0 < GetNextBaseTarget 600 24 false 3 [⟨100, 5⟩, ⟨50, 7⟩, ⟨20, 9⟩, ⟨0, 11⟩] ∧
     GetNextBaseTarget 600 24 false 3 [⟨100, 5⟩, ⟨50, 7⟩, ⟨20, 9⟩, ⟨0, 11⟩]
       ≤ CalculateGenesisBaseTarget 600 false) :=
  ⟨by decide, by decide,
   C3_next_base_target_bounds 600 24 false 3 [⟨100, 5⟩, ⟨50, 7⟩, ⟨20, 9⟩, ⟨0, 11⟩]
     (by decide) (by decide)⟩

/-- C4: `CalculateScoop` always returns a value in `[0, NUM_SCOOPS) = [0, 4096)`,
and on the pinned vector (height 0, gensig
`9821BEB3B34D9A3B30127C05F8D1E9006F8A02F565A3572145134BBE34D37A76`) it
returns 667. -/
theorem C4_calculate_scoop :
    (∀ (height : Nat) (gensig : List Nat), CalculateScoop height gensig < NUM_SCOOPS) ∧
    CalculateScoop 0
      [0x98, 0x21, 0xBE, 0xB3, 0xB3, 0x4D, 0x9A, 0x3B, 0x30, 0x12, 0x7C, 0x05,
       0xF8, 0xD1, 0xE9, 0x00, 0x6F, 0x8A, 0x02, 0xF5, 0x65, 0xA3, 0x57, 0x21,
       0x45, 0x13, 0x4B, 0xBE, 0x34, 0xD3, 0x7A, 0x76] = 667 := by
  constructor
  · intro height gensig
    exact scoop_formula_lt _
  · decide

/-- C5: `Shabal256Lite` performs exactly two Shabal compressions — one full
compression of `gensig || data[0..32]` and one terminator compression of
`data[32..64] || {0x80, 0, ..., 0}` — followed by the three swap/xor
finalisation rounds of the generic `Shabal256` machine, and returns output
words `b[8]` and `b[9]` packed as one little-endian u64; on the pinned
all-zero vector it returns 0x9824D76D62CD4F2F. -/
theorem C5_shabal256_lite :
    (∀ dataWords gensigWords : List Nat,
      Shabal256Lite dataWords gensigWords =
        gw (Shabal256Words [gensigWords.take 8 ++ dataWords.take 8] none
            ((dataWords.drop 8).take 8 ++ LITE_TERM)) 0 +
        gw (Shabal256Words [gensigWords.take 8 ++ dataWords.take 8] none
            ((dataWords.drop 8).take 8 ++ LITE_TERM)) 1 * M32) ∧
    Shabal256Lite (List.replicate 16 0) (List.replicate 8 0) = 0x9824D76D62CD4F2F := by
  constructor
  · intro d g
    unfold Shabal256Lite Shabal256Words
    simp only [List.foldl]
    rw [gw_range8_map_zero, gw_range8_map_one]
  · decide

/-- C6: the effective signer equals the assignment's forging address exactly
when a record exists and its derived state is ASSIGNING, ASSIGNED or REVOKING;
with no record the plot address itself signs, a stored record is never
UNASSIGNED, and in state REVOKED the plot address signs. -/
theorem C6_effective_signer :
    (∀ (p : List Nat) (h : Int), GetEffectiveSigner p h none = p) ∧
    (∀ (a : ForgingAssignment) (h : Int),
      GetAssignmentState h (some a) ≠ ForgingState.UNASSIGNED) ∧
    (∀ (p : List Nat) (h : Int) (a : ForgingAssignment),
      (GetAssignmentState h (some a) = ForgingState.ASSIGNING ∨
       GetAssignmentState h (some a) = ForgingState.ASSIGNED ∨
       GetAssignmentState h (some a) = ForgingState.REVOKING) →
      GetEffectiveSigner p h (some a) = a.forgingAddress) ∧
    (∀ (p : List Nat) (h : Int) (a : ForgingAssignment),
      GetAssignmentState h (some a) = ForgingState.REVOKED →
      GetEffectiveSigner p h (some a) = p) := by
  refine ⟨fun p h => rfl, ?_, ?_, ?_⟩
  · intro a h
    simp only [GetAssignmentState, GetStateAtHeight]
    split <;> split <;> simp
  · intro p h a hs
    simp only [GetAssignmentState] at hs
    rcases hs with hs | hs | hs <;>
      simp [GetEffectiveSigner, IsActiveAtHeight, hs]
  · intro p h a hs
    simp only [GetAssignmentState] at hs
    simp [GetEffectiveSigner, IsActiveAtHeight, hs]

/-- C6 witness: an assignment in state ASSIGNING (height 5, effective height
10) resolves to the forging address. -/
theorem C6_witness :
    GetEffectiveSigner [2] 5 (some ⟨[1], false, 10, 0⟩) = ([1] : List Nat) :=
  C6_effective_signer.2.2.1 [2] 5 ⟨[1], false, 10, 0⟩ (Or.inl (by decide))

/-- C7: parsing the OP_RETURN script produced by the assignment creator
returns exactly the 20-byte pair it was built from, and parsing the script
produced by the revocation creator returns exactly its plot address. -/
theorem C7_opreturn_roundtrip (p f : List Nat) (hp : p.length = 20) (hf : f.length = 20) :
    ParseAssignmentOpReturn (CreateAssignmentOpReturn p f) = some (p, f) ∧
    ParseRevocationOpReturn (CreateRevocationOpReturn p) = some p := by
  constructor
  · have hd : (ASSIGNMENT_MARKER ++ p ++ f).length = 44 := by
      simp [ASSIGNMENT_MARKER, hp, hf]
    have hget := getOpPush_pushData (ASSIGNMENT_MARKER ++ p ++ f) (by omega) (by omega)
    have hdrop4 : (ASSIGNMENT_MARKER ++ p ++ f).drop 4 = p ++ f := by
      rw [List.append_assoc]
      rfl
    have hdrop24 : (ASSIGNMENT_MARKER ++ p ++ f).drop 24 = f := by
      rw [List.append_assoc]
      have h1 : (ASSIGNMENT_MARKER ++ (p ++ f)).drop 24 = (p ++ f).drop 20 := rfl
      rw [h1, ← hp, List.drop_left]
    have htakeP : (p ++ f).take 20 = p := by
      rw [← hp]
      exact List.take_left p f
    have htakeF : f.take 20 = f := by
      rw [← hf]
      exact List.take_length _
    have his : IsAssignmentOpReturn (CreateAssignmentOpReturn p f) = true := by
      simp only [CreateAssignmentOpReturn, IsAssignmentOpReturn, hget, OP_RETURN]
      simp [ASSIGNMENT_MARKER, hp, hf]
    simp only [ParseAssignmentOpReturn, his, if_true]
    simp only [CreateAssignmentOpReturn, hget]
    rw [hdrop4, hdrop24, htakeP, htakeF]
  · have hd : (REVOCATION_MARKER ++ p).length = 24 := by
      simp [REVOCATION_MARKER, hp]
    have hget := getOpPush_pushData (REVOCATION_MARKER ++ p) (by omega) (by omega)
    have hdrop4 : (REVOCATION_MARKER ++ p).drop 4 = p := rfl
    have htakeP : p.take 20 = p := by
      rw [← hp]
      exact List.take_length _
    have his : IsRevocationOpReturn (CreateRevocationOpReturn p) = true := by
      simp only [CreateRevocationOpReturn, IsRevocationOpReturn, hget, OP_RETURN]
      simp [REVOCATION_MARKER, hp]
    simp only [ParseRevocationOpReturn, his, if_true]
    simp only [CreateRevocationOpReturn, hget]
    rw [hdrop4, htakeP]

/-- C7 witness: the round trip instantiated on concrete 20-byte addresses. -/
theorem C7_witness :
    ParseAssignmentOpReturn
        (CreateAssignmentOpReturn (List.replicate 20 7) (List.replicate 20 9))
      = some (List.replicate 20 7, List.replicate 20 9) ∧
    ParseRevocationOpReturn (CreateRevocationOpReturn (List.replicate 20 7))
      = some (List.replicate 20 7) :=
  C7_opreturn_roundtrip (List.replicate 20 7) (List.replicate 20 9) (by simp) (by simp)

/-- C8: when the scheduler holds a candidate and observes a new tip (hash
different from the candidate's stored tip), a defensive block is forged
exactly when the arriving block's previous hash equals the candidate's stored
tip hash and the candidate's quality is strictly lower than the arriving
block's recorded proof quality; with no candidate nothing is forged. -/
theorem C8_defensive_forging (cand : ForgingCandidate) (tip : TipInfo) :
    (cand.tip_block_hash ≠ tip.hash →
      (ProcessSubmissionDefensive (some cand) tip = true ↔
        tip.prevHash = cand.tip_block_hash ∧ cand.quality < tip.proofQuality)) ∧
    ProcessSubmissionDefensive none tip = false := by
  constructor
  · intro hne
    simp only [ProcessSubmissionDefensive, CheckDefensiveForging, if_pos hne]
    split
    next h => simp [h]
    next h => simp [not_not.mp (fun hh => h hh)]
  · rfl

/-- C8 witness: a same-height competitor (previous hash 100 equals the stored
tip, arriving quality 7 beats the candidate's 5) triggers a defensive
forge. -/
theorem C8_witness :
    ProcessSubmissionDefensive (some ⟨5, 100⟩) ⟨200, 100, 7⟩ = true :=
  ((C8_defensive_forging ⟨5, 100⟩ ⟨200, 100, 7⟩).1 (by decide)).mpr ⟨rfl, by decide⟩

/-- C9 counterexample: `SubmitNonce` never consults the shutdown flag — called
after `Shutdown` on an empty queue it still enqueues and returns `true`,
contradicting the claim that submit after close returns `false`. -/
theorem C9_counterexample_submit_after_shutdown :
    (SubmitNonce (SchedulerShutdown ⟨[], false⟩) ⟨"", "", 0, 0, 0, 0, 0⟩).2 = true := rfl

/-- C9 (amended): `SubmitNonce` returns `false` and leaves the queue unchanged
exactly when the queue already holds `MAX_QUEUE_SIZE = 1000` entries — so the
queue size never exceeds 1000 — and otherwise appends the submission and
returns `true`, regardless of the shutdown flag. -/
theorem C9_submit_nonce_queue_bound (st : SchedulerState) (s : NonceSubmission) :
    (st.queue.length ≥ MAX_QUEUE_SIZE → SubmitNonce st s = (st, false)) ∧
    (st.queue.length < MAX_QUEUE_SIZE →
      SubmitNonce st s = ({ st with queue := st.queue ++ [s] }, true)) ∧
    (st.queue.length ≤ MAX_QUEUE_SIZE → (SubmitNonce st s).1.queue.length ≤ MAX_QUEUE_SIZE) := by
  refine ⟨fun h => ?_, fun h => ?_, fun h => ?_⟩
  · simp [SubmitNonce, h]
  · simp [SubmitNonce, Nat.not_le.mpr h]
  · by_cases hq : st.queue.length ≥ MAX_QUEUE_SIZE
    · simp [SubmitNonce, hq]
      omega
    · simp [SubmitNonce, hq]
      simp only [Nat.not_le] at hq
      simp [MAX_QUEUE_SIZE] at hq ⊢
      omega

/-- C9 witness: a full queue of 1000 entries rejects the submission
unchanged. -/
theorem C9_witness :
    (List.replicate 1000 (⟨"", "", 0, 0, 0, 0, 0⟩ : NonceSubmission)).length ≥ MAX_QUEUE_SIZE ∧
    SubmitNonce ⟨List.replicate 1000 ⟨"", "", 0, 0, 0, 0, 0⟩, false⟩ ⟨"", "", 0, 0, 0, 0, 0⟩
      = (⟨List.replicate 1000 ⟨"", "", 0, 0, 0, 0, 0⟩, false⟩, false) :=
  ⟨by simp [MAX_QUEUE_SIZE],
   (C9_submit_nonce_queue_bound ⟨List.replicate 1000 ⟨"", "", 0, 0, 0, 0, 0⟩, false⟩
       ⟨"", "", 0, 0, 0, 0, 0⟩).1 (by simp [MAX_QUEUE_SIZE])⟩

/-- C10: for every input whose generation-signature decode and quality
computation succeed, `pocx_validate_block` returns `true` with `is_valid`
set, and the reported deadline is the plain quotient `quality / base_target`
when `base_target > 0` and `2^64 - 1` when `base_target = 0` — the division
is guarded, so no division by zero occurs. -/
theorem C10_validate_block_deadline (q bt : Nat) :
    (pocx_validate_block 0 (some q) bt).1 = true ∧
    (pocx_validate_block 0 (some q) bt).2.is_valid = true ∧
    (0 < bt → (pocx_validate_block 0 (some q) bt).2.deadline = q / bt) ∧
    (bt = 0 → (pocx_validate_block 0 (some q) bt).2.deadline = M64 - 1) := by
  refine ⟨rfl, rfl, fun h => ?_, fun h => ?_⟩
  · simp [pocx_validate_block, h]
  · simp [pocx_validate_block, h]

/-- C10 witness: at quality 100 and base target 7 the reported deadline is
`100 / 7`. -/
theorem C10_witness :
    (0 : Nat) < 7 ∧ (pocx_validate_block 0 (some 100) 7).2.deadline = 100 / 7 :=
  ⟨by decide, (C10_validate_block_deadline 100 7).2.2.1 (by decide)⟩

end PoCX
